import Mathlib

/-!
Verification of the question-retriever core logic.

Shallow embedding of:
 * `src/client/src/models/RetrievedQuestion.ts` (data model, `createRetrievedQuestion`),
 * `src/client/src/services/questionService.ts` (selection engine and sent-state toggle
   over the `retrievedQuestions` document store),
 * `src/functions/src/utils.ts` (`parseAIResponse`, `getWeekRange`, `isDateInWeekRange`)
   together with the inline parsing of `getQuestionSummary` in `src/functions/src/index.ts`.

Modelling conventions:
 * The Firestore `retrievedQuestions` collection is a list of (document id, record)
   pairs plus a counter supplying fresh document ids; document ids are natural numbers.
 * `Math.floor(Math.random() * n)` is modelled as `rand % n` for a universally
   quantified `rand : Nat`: this ranges over exactly the indices `[0, n)`.
 * The clock (`new Date().toISOString()`) is an explicit `now` parameter.
 * The remote AI call outcome is an explicit `Option AISummary` parameter
   (`none` models both an uninitialized functions client and an upstream failure,
   the two cases in which `getAISummary` returns `null`).
 * Text is `List Char`; the JavaScript regexes are modelled by functions that follow
   the backtracking behaviour of the concrete patterns used in the source, with `\s`
   restricted to the ASCII whitespace characters (the only ones the labels interact with).
 * JavaScript `Date` local-time arithmetic is modelled by a fixed-offset calendar
   (a day index plus milliseconds within the day); daylight-saving anomalies are
   outside the model.
-/

/-- Topic tag, from `src/client/src/models/Question.ts`. -/
structure TopicTag where
  name : String
  slug : String
deriving DecidableEq

/-- A question document (Firestore doc id inlined as `id`),
from `src/client/src/models/Question.ts`. -/
structure Question where
  id : String
  frontendQuestionId : String
  title : String
  titleSlug : String
  difficulty : String
  topicTags : List TopicTag
deriving DecidableEq

/-- Structured AI summary, from `src/functions/src/utils.ts`.
Text is carried as `List Char`. -/
structure AISummary where
  solution : List Char
  timeComplexity : List Char
  spaceComplexity : List Char
deriving DecidableEq

/-- A record in the `retrievedQuestions` collection,
from `src/client/src/models/RetrievedQuestion.ts`. -/
structure RetrievedQuestion where
  questionId : String
  frontendQuestionId : String
  title : String
  titleSlug : String
  difficulty : String
  topicTags : List TopicTag
  sentDate : String
  isChosen : Bool
  aiSummary : Option AISummary
deriving DecidableEq

/-- `createRetrievedQuestion` from `src/client/src/models/RetrievedQuestion.ts`;
the clock is the explicit `now` parameter. -/
def createRetrievedQuestion (question : Question) (now : String) : RetrievedQuestion :=
  { questionId := question.id
    frontendQuestionId := question.frontendQuestionId
    title := question.title
    titleSlug := question.titleSlug
    difficulty := question.difficulty
    topicTags := question.topicTags
    sentDate := now
    isChosen := true
    aiSummary := none }

/-- The `retrievedQuestions` Firestore collection: documents as (doc id, data)
pairs in snapshot order, plus a counter supplying fresh document ids. -/
structure Store where
  retrieved : List (Nat × RetrievedQuestion)
  nextId : Nat
deriving DecidableEq

/-- `getRandomUnsentQuestionByDifficulty` from
`src/client/src/services/questionService.ts` (lines 89-124).
`questions` is the `questions` collection, `rand % n` models
`Math.floor(Math.random() * n)`. -/
def getRandomUnsentQuestionByDifficulty (questions : List Question) (store : Store)
    (difficulty : String) (rand : Nat) : Option Question :=
  let questionsByDifficulty := questions.filter (fun q => q.difficulty == difficulty)
  if questionsByDifficulty.length = 0 then
    none
  else
    let sentQuestionIds := store.retrieved.map (fun p => p.2.questionId)
    let availableQuestions := questionsByDifficulty.filter
      (fun q => !(sentQuestionIds.contains q.id))
    if availableQuestions.length = 0 then
      questionsByDifficulty[rand % questionsByDifficulty.length]?
    else
      availableQuestions[rand % availableQuestions.length]?

/-- `isQuestionAlreadySent` from `src/client/src/services/questionService.ts`
(lines 129-144): query the records whose `questionId` matches and return the first
matching document's id. -/
def isQuestionAlreadySent (s : Store) (qid : String) : Bool × Option Nat :=
  match s.retrieved.find? (fun p => p.2.questionId == qid) with
  | some p => (true, some p.1)
  | none => (false, none)

/-- `markQuestionAsSent` from `src/client/src/services/questionService.ts`
(lines 178-205). `aiResult` is the outcome of `getAISummary` (`none` on failure). -/
def markQuestionAsSent (s : Store) (question : Question) (now : String)
    (aiResult : Option AISummary) : Option Nat × Store :=
  match isQuestionAlreadySent s question.id with
  | (true, some docId) => (some docId, s)
  | _ =>
    let base := createRetrievedQuestion question now
    let record := match aiResult with
      | some a => { base with aiSummary := some a }
      | none => base
    (some s.nextId,
      { retrieved := s.retrieved ++ [(s.nextId, record)], nextId := s.nextId + 1 })

/-- `deleteDoc` on the `retrievedQuestions` collection: remove the document with
the given id. -/
def deleteDoc (s : Store) (docId : Nat) : Store :=
  { s with retrieved := s.retrieved.filter (fun p => p.1 != docId) }

/-- `unsendQuestion` from `src/client/src/services/questionService.ts`
(lines 210-226). -/
def unsendQuestion (s : Store) (qid : String) : Bool × Store :=
  match isQuestionAlreadySent s qid with
  | (true, some docId) => (true, deleteDoc s docId)
  | _ => (false, s)

/-- Number of records in the store carrying the given `questionId`. -/
def countFor (s : Store) (qid : String) : Nat :=
  (s.retrieved.filter (fun p => p.2.questionId == qid)).length

/-! ### Selection engine theorems -/

lemma notContains_iff (l : List String) (a : String) :
    (!(l.contains a)) = true ↔ a ∉ l := by
  simp [List.contains]

/-- C1: if some question of the requested difficulty has an id not among the
`questionId` values of the sent-record store, then
`getRandomUnsentQuestionByDifficulty` returns a question of that difficulty whose
id is not in the sent set, for every outcome of the random draw. -/
theorem getRandomUnsent_difficulty_and_unsent
    (questions : List Question) (store : Store) (difficulty : String) (rand : Nat)
    (q : Question) (hq : q ∈ questions) (hd : q.difficulty = difficulty)
    (hunsent : q.id ∉ store.retrieved.map (fun p => p.2.questionId)) :
    ∃ q', getRandomUnsentQuestionByDifficulty questions store difficulty rand = some q' ∧
      q'.difficulty = difficulty ∧
      q'.id ∉ store.retrieved.map (fun p => p.2.questionId) := by
  have hqmem : q ∈ questions.filter (fun r => r.difficulty == difficulty) :=
    List.mem_filter.mpr ⟨hq, by simp [hd]⟩
  have hlen1 : ¬ (questions.filter (fun r => r.difficulty == difficulty)).length = 0 := by
    simp only [List.length_eq_zero]
    exact List.ne_nil_of_mem hqmem
  have havail : q ∈ (questions.filter (fun r => r.difficulty == difficulty)).filter
      (fun r => !((store.retrieved.map (fun p => p.2.questionId)).contains r.id)) :=
    List.mem_filter.mpr ⟨hqmem, (notContains_iff _ _).mpr hunsent⟩
  have hlen2 : ¬ ((questions.filter (fun r => r.difficulty == difficulty)).filter
      (fun r => !((store.retrieved.map (fun p => p.2.questionId)).contains r.id))).length
        = 0 := by
    simp only [List.length_eq_zero]
    exact List.ne_nil_of_mem havail
  have hpos : 0 < ((questions.filter (fun r => r.difficulty == difficulty)).filter
      (fun r => !((store.retrieved.map (fun p => p.2.questionId)).contains r.id))).length :=
    Nat.pos_of_ne_zero hlen2
  have hlt : rand % ((questions.filter (fun r => r.difficulty == difficulty)).filter
      (fun r => !((store.retrieved.map (fun p => p.2.questionId)).contains r.id))).length
      < ((questions.filter (fun r => r.difficulty == difficulty)).filter
      (fun r => !((store.retrieved.map (fun p => p.2.questionId)).contains r.id))).length :=
    Nat.mod_lt _ hpos
  refine ⟨((questions.filter (fun r => r.difficulty == difficulty)).filter
      (fun r => !((store.retrieved.map (fun p => p.2.questionId)).contains r.id)))[rand %
      ((questions.filter (fun r => r.difficulty == difficulty)).filter
      (fun r => !((store.retrieved.map (fun p => p.2.questionId)).contains r.id))).length],
    ?_, ?_, ?_⟩
  · simp only [getRandomUnsentQuestionByDifficulty, if_neg hlen1, if_neg hlen2]
    exact List.getElem?_eq_getElem hlt
  · have hmem := List.getElem_mem hlt
    have := (List.mem_filter.mp (List.mem_filter.mp hmem).1).2
    simpa using this
  · have hmem := List.getElem_mem hlt
    have := (List.mem_filter.mp hmem).2
    exact (notContains_iff _ _).mp this

/-- Closed instance of C1: one Easy question, empty store, draw 0. -/
theorem getRandomUnsent_difficulty_and_unsent_witness :
    ∃ q', getRandomUnsentQuestionByDifficulty
        [{ id := "1", frontendQuestionId := "1", title := "Two Sum",
           titleSlug := "two-sum", difficulty := "Easy", topicTags := [] }]
        ⟨[], 0⟩ "Easy" 0 = some q' ∧
      q'.difficulty = "Easy" ∧
      q'.id ∉ (Store.mk [] 0).retrieved.map (fun p => p.2.questionId) :=
  getRandomUnsent_difficulty_and_unsent _ ⟨[], 0⟩ "Easy" 0
    { id := "1", frontendQuestionId := "1", title := "Two Sum",
      titleSlug := "two-sum", difficulty := "Easy", topicTags := [] }
    (by decide) (by decide) (by decide)

/-- C2: whenever at least one question of the requested difficulty exists,
`getRandomUnsentQuestionByDifficulty` returns some question of that difficulty
(in particular it never returns `none` in the exhausted case where every such
question already has a sent record). -/
theorem getRandomUnsent_never_none_of_nonempty
    (questions : List Question) (store : Store) (difficulty : String) (rand : Nat)
    (q : Question) (hq : q ∈ questions) (hd : q.difficulty = difficulty) :
    ∃ q', getRandomUnsentQuestionByDifficulty questions store difficulty rand = some q' ∧
      q' ∈ questions ∧ q'.difficulty = difficulty := by
  have hqmem : q ∈ questions.filter (fun r => r.difficulty == difficulty) :=
    List.mem_filter.mpr ⟨hq, by simp [hd]⟩
  have hlen1 : ¬ (questions.filter (fun r => r.difficulty == difficulty)).length = 0 := by
    simp only [List.length_eq_zero]
    exact List.ne_nil_of_mem hqmem
  have hpos1 : 0 < (questions.filter (fun r => r.difficulty == difficulty)).length :=
    Nat.pos_of_ne_zero hlen1
  by_cases hlen2 : ((questions.filter (fun r => r.difficulty == difficulty)).filter
      (fun r => !((store.retrieved.map (fun p => p.2.questionId)).contains r.id))).length = 0
  · have hlt : rand % (questions.filter (fun r => r.difficulty == difficulty)).length
        < (questions.filter (fun r => r.difficulty == difficulty)).length :=
      Nat.mod_lt _ hpos1
    refine ⟨(questions.filter (fun r => r.difficulty == difficulty))[rand %
        (questions.filter (fun r => r.difficulty == difficulty)).length], ?_, ?_, ?_⟩
    · simp only [getRandomUnsentQuestionByDifficulty, if_neg hlen1, if_pos hlen2]
      exact List.getElem?_eq_getElem hlt
    · exact (List.mem_filter.mp (List.getElem_mem hlt)).1
    · have := (List.mem_filter.mp (List.getElem_mem hlt)).2
      simpa using this
  · have hpos2 : 0 < ((questions.filter (fun r => r.difficulty == difficulty)).filter
        (fun r => !((store.retrieved.map (fun p => p.2.questionId)).contains r.id))).length :=
      Nat.pos_of_ne_zero hlen2
    have hlt : rand % ((questions.filter (fun r => r.difficulty == difficulty)).filter
        (fun r => !((store.retrieved.map (fun p => p.2.questionId)).contains r.id))).length
        < ((questions.filter (fun r => r.difficulty == difficulty)).filter
        (fun r => !((store.retrieved.map (fun p => p.2.questionId)).contains r.id))).length :=
      Nat.mod_lt _ hpos2
    refine ⟨((questions.filter (fun r => r.difficulty == difficulty)).filter
        (fun r => !((store.retrieved.map (fun p => p.2.questionId)).contains r.id)))[rand %
        ((questions.filter (fun r => r.difficulty == difficulty)).filter
        (fun r => !((store.retrieved.map (fun p => p.2.questionId)).contains r.id))).length],
      ?_, ?_, ?_⟩
    · simp only [getRandomUnsentQuestionByDifficulty, if_neg hlen1, if_neg hlen2]
      exact List.getElem?_eq_getElem hlt
    · exact (List.mem_filter.mp (List.mem_filter.mp (List.getElem_mem hlt)).1).1
    · have := (List.mem_filter.mp (List.mem_filter.mp (List.getElem_mem hlt)).1).2
      simpa using this

/-- Closed instance of C2 at an exhausted pool: the single Easy question already
has a sent record, yet the selection still returns an Easy question. -/
theorem getRandomUnsent_never_none_of_nonempty_witness :
    ∃ q', getRandomUnsentQuestionByDifficulty
        [{ id := "1", frontendQuestionId := "1", title := "Two Sum",
           titleSlug := "two-sum", difficulty := "Easy", topicTags := [] }]
        ⟨[(0, createRetrievedQuestion
            { id := "1", frontendQuestionId := "1", title := "Two Sum",
              titleSlug := "two-sum", difficulty := "Easy", topicTags := [] }
            "2026-01-01")], 1⟩ "Easy" 0 = some q' ∧
      q' ∈ [{ id := "1", frontendQuestionId := "1", title := "Two Sum",
              titleSlug := "two-sum", difficulty := "Easy", topicTags := [] }] ∧
      q'.difficulty = "Easy" :=
  getRandomUnsent_never_none_of_nonempty _ _ "Easy" 0
    { id := "1", frontendQuestionId := "1", title := "Two Sum",
      titleSlug := "two-sum", difficulty := "Easy", topicTags := [] }
    (by decide) (by decide)

/-! ### AI response parsing (`src/functions/src/utils.ts` and the inline copy in
`src/functions/src/index.ts` / `src/unnamed/part_000`) -/

/-- JavaScript regex `\s` restricted to the ASCII whitespace characters
(space, tab, newline, carriage return, vertical tab, form feed). -/
def wsChar (c : Char) : Bool :=
  c = ' ' || c = '\t' || c = '\n' || c = '\r' || c = Char.ofNat 11 || c = Char.ofNat 12

/-- JavaScript `String.prototype.trim`: strip leading and trailing whitespace. -/
def jsTrim (l : List Char) : List Char :=
  ((l.dropWhile wsChar).reverse.dropWhile wsChar).reverse

/-- The literal solution label of the fixed response format. -/
def labelSolution : List Char := "פתרון:".toList

/-- Newline followed by the time label, the first lookahead alternative. -/
def labelTimeStop : List Char := "\nזמן:".toList

/-- Newline followed by the space label, the second lookahead alternative of
the `utils.ts` pattern. -/
def labelSpaceStop : List Char := "\nמקום:".toList

/-- The time label used by the complexity pattern. -/
def labelTime : List Char := "זמן:".toList

/-- The space label used by the complexity pattern. -/
def labelSpace : List Char := "מקום:".toList

/-- Lookahead of the `utils.ts` solution regex: a line break followed by the
time or the space label starts here. -/
def stopBoth (l : List Char) : Bool :=
  labelTimeStop.isPrefixOf l || labelSpaceStop.isPrefixOf l

/-- Lookahead of the inline solution regex in `getQuestionSummary`: only a line
break followed by the time label stops the capture. -/
def stopTimeOnly (l : List Char) : Bool :=
  labelTimeStop.isPrefixOf l

/-- The lazy group `(.+?)` (with the `s` flag) followed by the lookahead
`(?=STOP|$)`: capture the shortest non-empty prefix after which the stop
pattern or the end of input follows. Returns `none` on empty input. -/
def lazyCapture (stop : List Char → Bool) : List Char → Option (List Char)
  | [] => none
  | c :: rest =>
    if rest.isEmpty || stop rest then some [c]
    else (lazyCapture stop rest).map (fun t => c :: t)

/-- Matching `\s*(.+?)(?=STOP|$)` at a fixed position (`r0` is the text right
after the solution label): the greedy `\s*` consumes the maximal whitespace run;
if nothing remains, the engine backtracks one whitespace character which the
group then captures (the `$` lookahead succeeds at the end of input); otherwise
the lazy group captures from the first non-whitespace character. -/
def trySolutionAt (stop : List Char → Bool) (r0 : List Char) : Option (List Char) :=
  let tail := r0.dropWhile wsChar
  if tail.isEmpty then (r0.getLast?).map (fun c => [c])
  else lazyCapture stop tail

/-- Scan of `content.match(/LABEL\s*(.+?)(?=STOP|$)/s)`: try the pattern at each
position left to right and return the first successful capture. -/
def solutionCaptureFrom (stop : List Char → Bool) (label : List Char) :
    List Char → Option (List Char)
  | [] => none
  | l@(_ :: rest) =>
    if label.isPrefixOf l then
      match trySolutionAt stop (l.drop label.length) with
      | some t => some t
      | none => solutionCaptureFrom stop label rest
    else solutionCaptureFrom stop label rest

/-- Matching `\s*(O\([^)]+\))` at a fixed position: skip the maximal whitespace
run (giving characters back cannot produce the literal `O`), require `O(`, then
the greedy `[^)]+` takes the maximal run of non-`)` characters, which must be
non-empty and followed by `)`. -/
def tryComplexityAt (r0 : List Char) : Option (List Char) :=
  match r0.dropWhile wsChar with
  | 'O' :: '(' :: rest2 =>
    let body := rest2.takeWhile (fun c => c != ')')
    if body.isEmpty then none
    else if (rest2.drop body.length).head? = some ')' then
      some ('O' :: '(' :: (body ++ [')']))
    else none
  | _ => none

/-- Scan of `content.match(/LABEL\s*(O\([^)]+\))/)`. -/
def complexityCapture (label : List Char) : List Char → Option (List Char)
  | [] => none
  | l@(_ :: rest) =>
    if label.isPrefixOf l then
      match tryComplexityAt (l.drop label.length) with
      | some t => some t
      | none => complexityCapture label rest
    else complexityCapture label rest

/-- `parseAIResponse` from `src/functions/src/utils.ts` (lines 10-21); the
solution capture stops at a line starting with the time label or the space
label. An empty trimmed capture is falsy in JavaScript, so the `||` fallback to
the full trimmed content applies to it as well. -/
def parseAIResponse (content : List Char) : AISummary :=
  let solutionMatch := solutionCaptureFrom stopBoth labelSolution content
  let timeMatch := complexityCapture labelTime content
  let spaceMatch := complexityCapture labelSpace content
  { solution :=
      match solutionMatch with
      | some s => if jsTrim s = [] then jsTrim content else jsTrim s
      | none => jsTrim content
    timeComplexity := timeMatch.getD "O(?)".toList
    spaceComplexity := spaceMatch.getD "O(?)".toList }

/-- The inline parsing inside `getQuestionSummary`
(`src/functions/src/index.ts` lines 83-91, same text in `src/unnamed/part_000`
lines 94-102): identical to `parseAIResponse` except that the solution capture
stops only at a line starting with the time label. -/
def inlineParseAIResponse (content : List Char) : AISummary :=
  let solutionMatch := solutionCaptureFrom stopTimeOnly labelSolution content
  let timeMatch := complexityCapture labelTime content
  let spaceMatch := complexityCapture labelSpace content
  { solution :=
      match solutionMatch with
      | some s => if jsTrim s = [] then jsTrim content else jsTrim s
      | none => jsTrim content
    timeComplexity := timeMatch.getD "O(?)".toList
    spaceComplexity := spaceMatch.getD "O(?)".toList }

/-- Whether `needle` occurs as a contiguous substring of the text. -/
def containsSub (needle : List Char) : List Char → Bool
  | [] => needle.isEmpty
  | l@(_ :: rest) => needle.isPrefixOf l || containsSub needle rest

/-- Text after the first occurrence of `label`, if any. -/
def dropAfterFirst (label : List Char) : List Char → Option (List Char)
  | [] => none
  | l@(_ :: rest) =>
    if label.isPrefixOf l then some (l.drop label.length)
    else dropAfterFirst label rest

/-- Everything up to (and not including) the first position where a line
beginning with the time or the space label starts. -/
def takeUntilStopBoth : List Char → List Char
  | [] => []
  | l@(c :: rest) => if stopBoth l then [] else c :: takeUntilStopBoth rest

/-- The solution extraction rule as the specification words it (for comparison
with the implementations): everything after the solution label up to, and not
including, the next line beginning with the time label or the space label — or
up to the end of text if neither label follows — trimmed of surrounding
whitespace; the full trimmed text when the solution label is absent. -/
def specSolutionExtract (content : List Char) : List Char :=
  match dropAfterFirst labelSolution content with
  | some r0 => jsTrim (takeUntilStopBoth r0)
  | none => jsTrim content

/-! ### Parsing theorems -/

lemma mem_dropWhile_of_not_ws {c : Char} {l : List Char} (hc : c ∈ l)
    (hw : wsChar c = false) : c ∈ l.dropWhile wsChar := by
  induction l with
  | nil => cases hc
  | cons a t ih =>
    rw [List.dropWhile_cons]
    by_cases ha : wsChar a = true
    · rw [if_pos ha]
      rcases List.mem_cons.mp hc with h | h
      · subst h; rw [hw] at ha; cases ha
      · exact ih h
    · rw [if_neg ha]
      exact hc

lemma jsTrim_ne_nil {c : Char} {l : List Char} (hc : c ∈ l) (hw : wsChar c = false) :
    jsTrim l ≠ [] := by
  unfold jsTrim
  intro h
  have h1 : c ∈ l.dropWhile wsChar := mem_dropWhile_of_not_ws hc hw
  have h2 : c ∈ (l.dropWhile wsChar).reverse := List.mem_reverse.mpr h1
  have h3 : c ∈ (l.dropWhile wsChar).reverse.dropWhile wsChar :=
    mem_dropWhile_of_not_ws h2 hw
  rw [List.reverse_eq_nil_iff] at h
  rw [h] at h3
  cases h3

lemma containsSub_subset {n h : List Char} (hc : containsSub n h = true) :
    ∀ c ∈ n, c ∈ h := by
  induction h with
  | nil =>
    intro c hcn
    simp only [containsSub, List.isEmpty_iff] at hc
    subst hc; cases hcn
  | cons a t ih =>
    intro c hcn
    simp only [containsSub, Bool.or_eq_true] at hc
    rcases hc with h1 | h2
    · exact (List.isPrefixOf_iff_prefix.mp h1).subset hcn
    · exact List.mem_cons_of_mem a (ih h2 c hcn)

lemma solutionCaptureFrom_eq_none (stop : List Char → Bool) {n h : List Char}
    (hc : containsSub n h = false) :
    solutionCaptureFrom stop n h = none := by
  induction h with
  | nil => rfl
  | cons a t ih =>
    simp only [containsSub, Bool.or_eq_false_iff] at hc
    simp only [solutionCaptureFrom, hc.1, Bool.false_eq_true, if_false]
    exact ih hc.2

/-- C7: `parseAIResponse` is a total function and for every input text, if the
text contains the solution label the returned solution is non-empty, and if it
does not, the returned solution is the whole input trimmed. -/
theorem parseAIResponse_total_solution (content : List Char) :
    (containsSub labelSolution content = true → (parseAIResponse content).solution ≠ []) ∧
    (containsSub labelSolution content = false →
      (parseAIResponse content).solution = jsTrim content) := by
  constructor
  · intro hc
    have hcolon : (':' : Char) ∈ content := containsSub_subset hc ':' (by decide)
    have hne : jsTrim content ≠ [] := jsTrim_ne_nil hcolon (by decide)
    cases hm : solutionCaptureFrom stopBoth labelSolution content with
    | none => simpa [parseAIResponse, hm] using hne
    | some s =>
      by_cases hts : jsTrim s = []
      · simpa [parseAIResponse, hm, hts] using hne
      · simp [parseAIResponse, hm, hts]
  · intro hc
    have hnone := solutionCaptureFrom_eq_none stopBoth hc
    simp [parseAIResponse, hnone]

/-- Closed instances of C7: a text with the label gives a non-empty solution, a
text without it gives the trimmed text itself. -/
theorem parseAIResponse_total_solution_witness :
    (parseAIResponse "פתרון: X".toList).solution ≠ [] ∧
    (parseAIResponse "  hello  ".toList).solution = jsTrim "  hello  ".toList :=
  ⟨(parseAIResponse_total_solution _).1 (by decide),
   (parseAIResponse_total_solution _).2 (by decide)⟩

/-- Counterexample to C3: the inline parsing of `getQuestionSummary` does not
stop the solution at a line beginning with the space label — on a response whose
solution is followed by a space-complexity line but no time line, it returns the
solution together with the space line, not the spec-described extraction. -/
theorem inlineParse_not_spec_extraction :
    (inlineParseAIResponse "פתרון: A\nמקום: O(1)".toList).solution ≠
      specSolutionExtract "פתרון: A\nמקום: O(1)".toList := by decide

/-- C3 amended: `parseAIResponse` (utils.ts) stops the solution at the next line
beginning with the time label or the space label, while the inline parsing in
`getQuestionSummary` stops only at a line beginning with the time label: on
`"פתרון: A\nמקום: O(1)"` the former extracts `"A"` and the latter the whole
remainder including the space line; on a time-terminated response both agree. -/
theorem parse_solution_stop_label_difference :
    (parseAIResponse "פתרון: A\nמקום: O(1)".toList).solution = "A".toList ∧
    (inlineParseAIResponse "פתרון: A\nמקום: O(1)".toList).solution
      = "A\nמקום: O(1)".toList ∧
    (parseAIResponse "פתרון: A\nמקום: O(1)".toList).solution
      = specSolutionExtract "פתרון: A\nמקום: O(1)".toList ∧
    (parseAIResponse "פתרון: B\nזמן: O(n)".toList).solution = "B".toList ∧
    (inlineParseAIResponse "פתרון: B\nזמן: O(n)".toList).solution = "B".toList := by
  decide

/-! ### Sent-state toggle theorems -/

lemma mark_of_find_some (s : Store) (now : String) (ai : Option AISummary)
    {q : Question} {p : Nat × RetrievedQuestion}
    (hf : s.retrieved.find? (fun r => r.2.questionId == q.id) = some p) :
    markQuestionAsSent s q now ai = (some p.1, s) := by
  simp [markQuestionAsSent, isQuestionAlreadySent, hf]

lemma mark_of_find_none (s : Store) (now : String) (ai : Option AISummary) {q : Question}
    (hf : s.retrieved.find? (fun r => r.2.questionId == q.id) = none) :
    ∃ record : RetrievedQuestion,
      record.questionId = q.id ∧ record.isChosen = true ∧
      (ai = none → record = createRetrievedQuestion q now) ∧
      markQuestionAsSent s q now ai =
        (some s.nextId, ⟨s.retrieved ++ [(s.nextId, record)], s.nextId + 1⟩) := by
  cases ai with
  | none =>
    exact ⟨createRetrievedQuestion q now, rfl, rfl, fun _ => rfl, by
      simp [markQuestionAsSent, isQuestionAlreadySent, hf]⟩
  | some a =>
    exact ⟨{ createRetrievedQuestion q now with aiSummary := some a }, rfl, rfl,
      fun h => by simp at h, by simp [markQuestionAsSent, isQuestionAlreadySent, hf]⟩

lemma find?_append_record {l : List (Nat × RetrievedQuestion)} {qid : String}
    (hf : l.find? (fun r => r.2.questionId == qid) = none)
    (nid : Nat) (record : RetrievedQuestion) (hqid : record.questionId = qid) :
    (l ++ [(nid, record)]).find? (fun r => r.2.questionId == qid)
      = some (nid, record) := by
  rw [List.find?_append, hf]
  simp [hqid]

lemma filter_eq_nil_of_find?_none {l : List (Nat × RetrievedQuestion)} {qid : String}
    (hf : l.find? (fun r => r.2.questionId == qid) = none) :
    l.filter (fun r => r.2.questionId == qid) = [] := by
  rw [List.filter_eq_nil_iff]
  exact List.find?_eq_none.mp hf

lemma isSent_false_of_find?_none {s : Store} {qid : String}
    (hf : s.retrieved.find? (fun r => r.2.questionId == qid) = none) :
    (isQuestionAlreadySent s qid).1 = false := by
  simp only [isQuestionAlreadySent, hf]

lemma find?_none_of_not_sent {s : Store} {qid : String}
    (hnone : (isQuestionAlreadySent s qid).1 = false) :
    s.retrieved.find? (fun r => r.2.questionId == qid) = none := by
  cases hf : s.retrieved.find? (fun r => r.2.questionId == qid) with
  | none => rfl
  | some p => simp [isQuestionAlreadySent, hf] at hnone

/-- C4: marking the same question twice in sequence returns the same record id
both times, the second call changes nothing, and afterwards exactly one record
for that question id is stored (from any store satisfying the documented
at-most-one-record-per-question invariant). -/
theorem markTwice_idempotent (s : Store) (q : Question) (now now2 : String)
    (ai ai2 : Option AISummary) (hinv : countFor s q.id ≤ 1) :
    (markQuestionAsSent (markQuestionAsSent s q now ai).2 q now2 ai2).1
        = (markQuestionAsSent s q now ai).1 ∧
    ((markQuestionAsSent s q now ai).1).isSome = true ∧
    (markQuestionAsSent (markQuestionAsSent s q now ai).2 q now2 ai2).2
        = (markQuestionAsSent s q now ai).2 ∧
    countFor (markQuestionAsSent (markQuestionAsSent s q now ai).2 q now2 ai2).2 q.id
        = 1 := by
  cases hf : s.retrieved.find? (fun r => r.2.questionId == q.id) with
  | some p =>
    have h1 := mark_of_find_some s now ai hf
    have h2 := mark_of_find_some s now2 ai2 hf
    have hp : p ∈ s.retrieved := List.mem_of_find?_eq_some hf
    have hpm := List.find?_some hf
    have hmem : p ∈ s.retrieved.filter (fun r => r.2.questionId == q.id) :=
      List.mem_filter.mpr ⟨hp, hpm⟩
    have hpos : 0 < countFor s q.id := by
      unfold countFor
      exact List.length_pos.mpr (List.ne_nil_of_mem hmem)
    refine ⟨by simp [h1, h2], by simp [h1], by simp [h1, h2], ?_⟩
    simp only [h1, h2]
    omega
  | none =>
    obtain ⟨record, hqid, -, -, hmark⟩ := mark_of_find_none s now ai hf
    have hfind2 : (s.retrieved ++ [(s.nextId, record)]).find?
        (fun r => r.2.questionId == q.id) = some (s.nextId, record) :=
      find?_append_record hf s.nextId record hqid
    have h2 := mark_of_find_some ⟨s.retrieved ++ [(s.nextId, record)], s.nextId + 1⟩
      now2 ai2 hfind2
    have hnil := filter_eq_nil_of_find?_none hf
    refine ⟨by simp [hmark, h2], by simp [hmark], by simp [hmark, h2], ?_⟩
    simp only [hmark, h2]
    unfold countFor
    rw [List.filter_append _ _, hnil]
    simp [hqid]

/-- Closed instance of C4: marking the same question twice from the empty store. -/
theorem markTwice_idempotent_witness :
    (markQuestionAsSent (markQuestionAsSent ⟨[], 0⟩
          { id := "1", frontendQuestionId := "1", title := "Two Sum",
            titleSlug := "two-sum", difficulty := "Easy", topicTags := [] }
          "t1" none).2
        { id := "1", frontendQuestionId := "1", title := "Two Sum",
          titleSlug := "two-sum", difficulty := "Easy", topicTags := [] } "t2" none).1
      = (markQuestionAsSent ⟨[], 0⟩
          { id := "1", frontendQuestionId := "1", title := "Two Sum",
            titleSlug := "two-sum", difficulty := "Easy", topicTags := [] } "t1" none).1 ∧
    ((markQuestionAsSent ⟨[], 0⟩
          { id := "1", frontendQuestionId := "1", title := "Two Sum",
            titleSlug := "two-sum", difficulty := "Easy", topicTags := [] } "t1" none).1).isSome
      = true ∧
    (markQuestionAsSent (markQuestionAsSent ⟨[], 0⟩
          { id := "1", frontendQuestionId := "1", title := "Two Sum",
            titleSlug := "two-sum", difficulty := "Easy", topicTags := [] }
          "t1" none).2
        { id := "1", frontendQuestionId := "1", title := "Two Sum",
          titleSlug := "two-sum", difficulty := "Easy", topicTags := [] } "t2" none).2
      = (markQuestionAsSent ⟨[], 0⟩
          { id := "1", frontendQuestionId := "1", title := "Two Sum",
            titleSlug := "two-sum", difficulty := "Easy", topicTags := [] } "t1" none).2 ∧
    countFor (markQuestionAsSent (markQuestionAsSent ⟨[], 0⟩
          { id := "1", frontendQuestionId := "1", title := "Two Sum",
            titleSlug := "two-sum", difficulty := "Easy", topicTags := [] }
          "t1" none).2
        { id := "1", frontendQuestionId := "1", title := "Two Sum",
          titleSlug := "two-sum", difficulty := "Easy", topicTags := [] } "t2" none).2 "1"
      = 1 :=
  markTwice_idempotent ⟨[], 0⟩
    { id := "1", frontendQuestionId := "1", title := "Two Sum",
      titleSlug := "two-sum", difficulty := "Easy", topicTags := [] }
    "t1" "t2" none none (by decide)

/-- C5: starting from a store with no record for the question, mark then unmark
returns `true` from the unmark, and a subsequent `isQuestionAlreadySent` reports
the question as not sent. -/
theorem mark_unmark_roundtrip (s : Store) (q : Question) (now : String)
    (ai : Option AISummary)
    (hnone : (isQuestionAlreadySent s q.id).1 = false) :
    (unsendQuestion (markQuestionAsSent s q now ai).2 q.id).1 = true ∧
    (isQuestionAlreadySent
        (unsendQuestion (markQuestionAsSent s q now ai).2 q.id).2 q.id).1 = false := by
  have hf := find?_none_of_not_sent hnone
  obtain ⟨record, hqid, -, -, hmark⟩ := mark_of_find_none s now ai hf
  have hfind2 : (s.retrieved ++ [(s.nextId, record)]).find?
      (fun r => r.2.questionId == q.id) = some (s.nextId, record) :=
    find?_append_record hf s.nextId record hqid
  rw [hmark]
  have hafter : ((s.retrieved ++ [(s.nextId, record)]).filter
      (fun p => p.1 != s.nextId)).find? (fun r => r.2.questionId == q.id) = none := by
    rw [List.find?_eq_none]
    intro x hx
    have hx' : x ∈ s.retrieved ++ [(s.nextId, record)] := List.mem_of_mem_filter hx
    rcases List.mem_append.mp hx' with h1 | h2
    · exact List.find?_eq_none.mp hf x h1
    · have hpx := List.of_mem_filter hx
      rcases List.mem_singleton.mp h2 with rfl
      simp at hpx
  have huns : unsendQuestion ⟨s.retrieved ++ [(s.nextId, record)], s.nextId + 1⟩ q.id
      = (true, deleteDoc ⟨s.retrieved ++ [(s.nextId, record)], s.nextId + 1⟩ s.nextId) := by
    simp [unsendQuestion, isQuestionAlreadySent, hfind2]
  rw [huns]
  exact ⟨rfl, isSent_false_of_find?_none hafter⟩

/-- Closed instance of C5 from the empty store. -/
theorem mark_unmark_roundtrip_witness :
    (unsendQuestion (markQuestionAsSent ⟨[], 0⟩
          { id := "1", frontendQuestionId := "1", title := "Two Sum",
            titleSlug := "two-sum", difficulty := "Easy", topicTags := [] }
          "t1" none).2 "1").1 = true ∧
    (isQuestionAlreadySent
        (unsendQuestion (markQuestionAsSent ⟨[], 0⟩
            { id := "1", frontendQuestionId := "1", title := "Two Sum",
              titleSlug := "two-sum", difficulty := "Easy", topicTags := [] }
            "t1" none).2 "1").2 "1").1 = false :=
  mark_unmark_roundtrip ⟨[], 0⟩
    { id := "1", frontendQuestionId := "1", title := "Two Sum",
      titleSlug := "two-sum", difficulty := "Easy", topicTags := [] }
    "t1" none (by decide)

/-- C6: when the AI summary fetch fails (`getAISummary` returned `null`, as it
does on an upstream error or an uninitialized functions client) and no record
exists yet, `markQuestionAsSent` still inserts a record — one carrying no
`aiSummary` — and returns the new record's id. -/
theorem mark_aiFailure_inserts_without_summary (s : Store) (q : Question) (now : String)
    (hnone : (isQuestionAlreadySent s q.id).1 = false) :
    (markQuestionAsSent s q now none).1 = some s.nextId ∧
    (markQuestionAsSent s q now none).2.retrieved
        = s.retrieved ++ [(s.nextId, createRetrievedQuestion q now)] ∧
    (createRetrievedQuestion q now).aiSummary = none := by
  have hf := find?_none_of_not_sent hnone
  obtain ⟨record, -, -, hrec, hmark⟩ := mark_of_find_none s now none hf
  rw [hrec rfl] at hmark
  exact ⟨by rw [hmark], by rw [hmark], rfl⟩

/-- Closed instance of C6 from the empty store. -/
theorem mark_aiFailure_inserts_without_summary_witness :
    (markQuestionAsSent ⟨[], 0⟩
        { id := "1", frontendQuestionId := "1", title := "Two Sum",
          titleSlug := "two-sum", difficulty := "Easy", topicTags := [] }
        "t1" none).1 = some (Store.mk [] 0).nextId ∧
    (markQuestionAsSent ⟨[], 0⟩
        { id := "1", frontendQuestionId := "1", title := "Two Sum",
          titleSlug := "two-sum", difficulty := "Easy", topicTags := [] }
        "t1" none).2.retrieved
      = (Store.mk [] 0).retrieved ++ [((Store.mk [] 0).nextId, createRetrievedQuestion
          { id := "1", frontendQuestionId := "1", title := "Two Sum",
            titleSlug := "two-sum", difficulty := "Easy", topicTags := [] } "t1")] ∧
    (createRetrievedQuestion
        { id := "1", frontendQuestionId := "1", title := "Two Sum",
          titleSlug := "two-sum", difficulty := "Easy", topicTags := [] }
        "t1").aiSummary = none :=
  mark_aiFailure_inserts_without_summary ⟨[], 0⟩
    { id := "1", frontendQuestionId := "1", title := "Two Sum",
      titleSlug := "two-sum", difficulty := "Easy", topicTags := [] }
    "t1" (by decide)

/-! ### Weekly range (`src/functions/src/utils.ts` lines 26-48) -/

/-- A JavaScript `Date` under a fixed-offset local calendar: a local day index
(days since the epoch) plus the milliseconds elapsed within that local day. -/
structure JSDate where
  days : Int
  msOfDay : Nat
deriving DecidableEq

/-- `Date.prototype.getDay`: day of the week with Sunday = 0; the epoch day
(1970-01-01) was a Thursday, hence the offset 4. -/
def getDay (d : JSDate) : Int := (d.days + 4) % 7

/-- Absolute instant in milliseconds, the order `Date` comparisons use. -/
def toMs (d : JSDate) : Int := d.days * 86400000 + (d.msOfDay : Int)

/-- `getWeekRange` from `src/functions/src/utils.ts` (lines 26-38): move the
reference date back `getDay now` calendar days — the combined effect of
`setDate(now.getDate() - dayOfWeek)` with JavaScript month rollover — truncate
to local midnight via `setHours(0, 0, 0, 0)`, and place the end four days later
at `23:59:59.999`. -/
def getWeekRange (now : JSDate) : JSDate × JSDate :=
  let sunday : JSDate := { days := now.days - getDay now, msOfDay := 0 }
  let thursday : JSDate := { days := sunday.days + 4, msOfDay := 86399999 }
  (sunday, thursday)

/-- `isDateInWeekRange` from `src/functions/src/utils.ts` (lines 43-48),
inclusive on both bounds. -/
def isDateInWeekRange (date : JSDate) (range : JSDate × JSDate) : Bool :=
  toMs range.1 ≤ toMs date && toMs date ≤ toMs range.2

/-- C8: for every reference instant, `getWeekRange` starts on a Sunday at local
`00:00:00.000`, ends on the Thursday four days later at local `23:59:59.999`,
and the start never lies after the reference instant. -/
theorem getWeekRange_sunday_to_thursday (now : JSDate) :
    getDay (getWeekRange now).1 = 0 ∧
    (getWeekRange now).1.msOfDay = 0 ∧
    getDay (getWeekRange now).2 = 4 ∧
    (getWeekRange now).2.days = (getWeekRange now).1.days + 4 ∧
    (getWeekRange now).2.msOfDay = 86399999 ∧
    toMs (getWeekRange now).1 ≤ toMs now := by
  refine ⟨?_, rfl, ?_, rfl, rfl, ?_⟩
  · simp only [getWeekRange, getDay]
    omega
  · simp only [getWeekRange, getDay]
    omega
  · simp only [getWeekRange, getDay, toMs]
    omega

/-! ### Duplicate sent records (C9) -/

lemma countP_filter_ne_fst {l : List (Nat × RetrievedQuestion)}
    {p : Nat × RetrievedQuestion} (hp : p ∈ l) (hnd : (l.map Prod.fst).Nodup)
    (pm : Nat × RetrievedQuestion → Bool) (hpm : pm p = true) :
    ((l.filter (fun x => x.1 != p.1)).filter pm).length + 1 = (l.filter pm).length := by
  induction l with
  | nil => cases hp
  | cons a t ih =>
    rw [List.map_cons, List.nodup_cons] at hnd
    rcases List.mem_cons.mp hp with heq | hpt
    · subst heq
      have hat : t.filter (fun x => x.1 != p.1) = t := by
        rw [List.filter_eq_self]
        intro x hx
        have hmem : x.1 ∈ t.map Prod.fst := List.mem_map_of_mem _ hx
        have hne : x.1 ≠ p.1 := fun h => hnd.1 (h ▸ hmem)
        simpa [bne_iff_ne] using hne
      simp only [List.filter_cons, bne_self_eq_false, Bool.false_eq_true, if_false,
        hat, hpm, if_true, List.length_cons]
    · have hane : (a.1 != p.1) = true := by
        have hmem : p.1 ∈ t.map Prod.fst := List.mem_map_of_mem _ hpt
        have hne : a.1 ≠ p.1 := fun h => hnd.1 (h ▸ hmem)
        simpa [bne_iff_ne] using hne
      have ihs := ih hpt hnd.2
      by_cases hpa : pm a = true
      · simp only [List.filter_cons, hane, if_true, hpa, List.length_cons]
        omega
      · have hpa' : pm a = false := by simpa using hpa
        simp only [List.filter_cons, hane, if_true, hpa', Bool.false_eq_true, if_false]
        exact ihs

/-- C9: from a store holding two or more records for the same question id (with
pairwise distinct document ids), `unsendQuestion` returns `true` but deletes
exactly one matching record, so a subsequent `isQuestionAlreadySent` still
reports the question as sent. -/
theorem unsend_deletes_at_most_one (s : Store) (qid : String)
    (hdup : 2 ≤ countFor s qid) (hnd : (s.retrieved.map Prod.fst).Nodup) :
    (unsendQuestion s qid).1 = true ∧
    countFor (unsendQuestion s qid).2 qid + 1 = countFor s qid ∧
    (isQuestionAlreadySent (unsendQuestion s qid).2 qid).1 = true := by
  have hpos : 0 < countFor s qid := by omega
  have hex : ∃ x ∈ s.retrieved, (x.2.questionId == qid) = true := by
    unfold countFor at hpos
    obtain ⟨x, hx⟩ := List.exists_mem_of_length_pos hpos
    have hpx := List.of_mem_filter hx
    exact ⟨x, List.mem_of_mem_filter hx, hpx⟩
  cases hfind : s.retrieved.find? (fun r => r.2.questionId == qid) with
  | none =>
    obtain ⟨x, hx, hpx⟩ := hex
    exact absurd hpx (List.find?_eq_none.mp hfind x hx)
  | some p =>
    have hp : p ∈ s.retrieved := List.mem_of_find?_eq_some hfind
    have hpm := List.find?_some hfind
    have huns : unsendQuestion s qid = (true, deleteDoc s p.1) := by
      simp [unsendQuestion, isQuestionAlreadySent, hfind]
    rw [huns]
    have hcount : countFor (deleteDoc s p.1) qid + 1 = countFor s qid := by
      unfold countFor deleteDoc
      exact countP_filter_ne_fst hp hnd _ hpm
    refine ⟨rfl, hcount, ?_⟩
    have h1 : 0 < countFor (deleteDoc s p.1) qid := by omega
    have hex2 : ∃ x ∈ (deleteDoc s p.1).retrieved, (x.2.questionId == qid) = true := by
      unfold countFor at h1
      obtain ⟨x, hx⟩ := List.exists_mem_of_length_pos h1
      have hpx := List.of_mem_filter hx
      exact ⟨x, List.mem_of_mem_filter hx, hpx⟩
    cases hf2 : (deleteDoc s p.1).retrieved.find? (fun r => r.2.questionId == qid) with
    | none =>
      obtain ⟨x, hx, hpx⟩ := hex2
      exact absurd hpx (List.find?_eq_none.mp hf2 x hx)
    | some p2 => simp [isQuestionAlreadySent, hf2]

/-- Closed instance of C9: two records for question id "1" under distinct
document ids; unsending deletes one and the question still reads as sent. -/
theorem unsend_deletes_at_most_one_witness :
    (unsendQuestion ⟨[(0, createRetrievedQuestion
          { id := "1", frontendQuestionId := "1", title := "Two Sum",
            titleSlug := "two-sum", difficulty := "Easy", topicTags := [] } "t1"),
        (1, createRetrievedQuestion
          { id := "1", frontendQuestionId := "1", title := "Two Sum",
            titleSlug := "two-sum", difficulty := "Easy", topicTags := [] } "t2")], 2⟩
      "1").1 = true ∧
    countFor (unsendQuestion ⟨[(0, createRetrievedQuestion
          { id := "1", frontendQuestionId := "1", title := "Two Sum",
            titleSlug := "two-sum", difficulty := "Easy", topicTags := [] } "t1"),
        (1, createRetrievedQuestion
          { id := "1", frontendQuestionId := "1", title := "Two Sum",
            titleSlug := "two-sum", difficulty := "Easy", topicTags := [] } "t2")], 2⟩
      "1").2 "1" + 1
      = countFor ⟨[(0, createRetrievedQuestion
          { id := "1", frontendQuestionId := "1", title := "Two Sum",
            titleSlug := "two-sum", difficulty := "Easy", topicTags := [] } "t1"),
        (1, createRetrievedQuestion
          { id := "1", frontendQuestionId := "1", title := "Two Sum",
            titleSlug := "two-sum", difficulty := "Easy", topicTags := [] } "t2")], 2⟩ "1" ∧
    (isQuestionAlreadySent (unsendQuestion ⟨[(0, createRetrievedQuestion
          { id := "1", frontendQuestionId := "1", title := "Two Sum",
            titleSlug := "two-sum", difficulty := "Easy", topicTags := [] } "t1"),
        (1, createRetrievedQuestion
          { id := "1", frontendQuestionId := "1", title := "Two Sum",
            titleSlug := "two-sum", difficulty := "Easy", topicTags := [] } "t2")], 2⟩
      "1").2 "1").1 = true :=
  unsend_deletes_at_most_one _ "1" (by decide) (by decide)

/-! ### The `isChosen` invariant (C10) -/

/-- The only other writer of the `retrievedQuestions` collection:
`backfillWeekSummaries` (`src/unnamed/part_000` lines 169-243) runs
`doc.ref.update({aiSummary})` on selected documents, replacing only the
`aiSummary` field. Updating an arbitrary document covers every update the
backfill can perform. -/
def backfillUpdateSummary (s : Store) (docId : Nat) (a : AISummary) : Store :=
  { s with
    retrieved := s.retrieved.map (fun p =>
      if p.1 == docId then (p.1, { p.2 with aiSummary := some a }) else p) }

/-- One write operation on the `retrievedQuestions` store: a mark, an unmark, or
a backfill summary update (the only writers in the repository). -/
inductive Step : Store → Store → Prop
  | mark (q : Question) (now : String) (ai : Option AISummary) (s : Store) :
      Step s (markQuestionAsSent s q now ai).2
  | unsend (qid : String) (s : Store) :
      Step s (unsendQuestion s qid).2
  | backfill (docId : Nat) (a : AISummary) (s : Store) :
      Step s (backfillUpdateSummary s docId a)

/-- Store states reachable from the initially empty collection through the
system's write operations. -/
inductive Reachable : Store → Prop
  | init : Reachable ⟨[], 0⟩
  | step {s s' : Store} : Reachable s → Step s s' → Reachable s'

/-- C10: every record `markQuestionAsSent` inserts has `isChosen = true`, and no
operation ever writes `isChosen = false`: in every reachable store state every
stored record has `isChosen = true`. -/
theorem isChosen_always_true (s : Store) (h : Reachable s) :
    ∀ p ∈ s.retrieved, p.2.isChosen = true := by
  induction h with
  | init => intro p hp; cases hp
  | @step s0 s1 _ hs ih =>
    cases hs with
    | mark q now ai s0 =>
      cases hf : s0.retrieved.find? (fun r => r.2.questionId == q.id) with
      | some p0 =>
        rw [mark_of_find_some s0 now ai hf]
        exact ih
      | none =>
        obtain ⟨record, -, hch, -, hmark⟩ := mark_of_find_none s0 now ai hf
        rw [hmark]
        intro p hp
        rcases List.mem_append.mp hp with h1 | h2
        · exact ih p h1
        · rcases List.mem_singleton.mp h2 with rfl
          exact hch
    | unsend qid s0 =>
      cases hf : s0.retrieved.find? (fun r => r.2.questionId == qid) with
      | some p0 =>
        have huns : unsendQuestion s0 qid = (true, deleteDoc s0 p0.1) := by
          simp [unsendQuestion, isQuestionAlreadySent, hf]
        rw [huns]
        intro p hp
        exact ih p (List.mem_of_mem_filter hp)
      | none =>
        have huns : unsendQuestion s0 qid = (false, s0) := by
          simp [unsendQuestion, isQuestionAlreadySent, hf]
        rw [huns]
        exact ih
    | backfill docId a s0 =>
      intro p hp
      simp only [backfillUpdateSummary] at hp
      obtain ⟨p0, hp0, heq⟩ := List.mem_map.mp hp
      have hch := ih p0 hp0
      by_cases h01 : (p0.1 == docId) = true
      · rw [if_pos h01] at heq
        rw [← heq]
        exact hch
      · rw [if_neg h01] at heq
        rw [← heq]
        exact hch

/-- Closed instance of C10: the record inserted by marking a question from the
empty store has `isChosen = true`. -/
theorem isChosen_always_true_witness :
    (createRetrievedQuestion
        { id := "1", frontendQuestionId := "1", title := "Two Sum",
          titleSlug := "two-sum", difficulty := "Easy", topicTags := [] }
        "2026-01-01").isChosen = true :=
  isChosen_always_true
    (markQuestionAsSent ⟨[], 0⟩
      { id := "1", frontendQuestionId := "1", title := "Two Sum",
        titleSlug := "two-sum", difficulty := "Easy", topicTags := [] }
      "2026-01-01" none).2
    (Reachable.step Reachable.init
      (Step.mark
        { id := "1", frontendQuestionId := "1", title := "Two Sum",
          titleSlug := "two-sum", difficulty := "Easy", topicTags := [] }
        "2026-01-01" none ⟨[], 0⟩))
    (0, createRetrievedQuestion
      { id := "1", frontendQuestionId := "1", title := "Two Sum",
        titleSlug := "two-sum", difficulty := "Easy", topicTags := [] }
      "2026-01-01")
    (by decide)
